import Mathlib

/-!
gcache: an expiring key-value cache

A shallow embedding of `cache.go`.

* `time.Duration` and Unix-nanosecond instants are Go `int64`s; they are
  embedded as `Int`, and the one place where the source does arithmetic on
  them (`time.Now().Add(d).UnixNano()` in `Set`) wraps with `wrapInt64`.
* `interface{}` is embedded as `Option V`: `none` is the `nil` interface.
* `map[string]Item` is embedded as an association list with pairwise
  distinct keys.  The order of the entries is the order in which a `range`
  loop over the map visits them; the theorems quantify over every such
  list, hence over every iteration order.
* Each method that reads the clock takes the reading `now` as an argument.
  The mutex is not modelled: every method body is one critical section.
* The goroutine of `Keeper.run` is embedded as a transition function over the
  messages its `select` receives; the panic of `time.NewTicker` on a
  non-positive period is an outcome of its own.
-/

namespace gcache

/-! ## Data model -/

/-- Two's-complement reduction of an integer to the range of a Go `int64`. -/
def wrapInt64 (x : Int) : Int := (x + 2 ^ 63) % 2 ^ 64 - 2 ^ 63

/-- The constant `NoExpiration time.Duration = -1`. -/
def NoExpiration : Int := -1

/-- The constant `DefaultExpiration time.Duration = 0`. -/
def DefaultExpiration : Int := 0

/-- The struct `Item`: a payload and an absolute expiration instant. -/
structure Item (V : Type) where
  Object : Option V
  Expiration : Int
deriving DecidableEq

/-- The struct `Keeper` (its stop channel is not part of the data). -/
structure Keeper where
  intervalExpire : Int
deriving DecidableEq

/-- The type `map[string]Item`. -/
abbrev ItemMap (V : Type) : Type := AList (fun _ : String => Item V)

/-- The struct `GCache` (without its mutex). -/
structure GCache (V : Type) where
  defaultExpiration : Int
  items : ItemMap V
  Keeper : Option gcache.Keeper

/-- A value of `time.Time` as returned by `GetWithExpiration`: either the zero
value `time.Time{}` or `time.Unix(0, n)`.  For an `int64` `n` the latter is
never the zero value (the zero value lies outside the `int64` nanosecond
range). -/
inductive Time where
  | zero : Time
  | unix (nsec : Int) : Time
deriving DecidableEq

/-! ## Operations -/

/-- The constructor `NewGCache`. -/
def NewGCache (V : Type) (de : Int) : GCache V :=
  { defaultExpiration := de, items := ∅, Keeper := none }

/-- The method `runKeeper`: installs a keeper whose ticker period is `e`. -/
def GCache.runKeeper {V : Type} (c : GCache V) (e : Int) : GCache V :=
  { c with Keeper := some { intervalExpire := e } }

/-- The constructor `NewCache`. -/
def NewCache (V : Type) (defaultExpiration clearInterval : Int) : GCache V :=
  let c := NewGCache V defaultExpiration
  if clearInterval > 0 then c.runKeeper defaultExpiration else c

/-- The method `Set`, called when the clock reads `now`. -/
def GCache.Set {V : Type} (c : GCache V) (now : Int) (k : String) (v : Option V)
    (d : Int) : GCache V :=
  let d := if d = DefaultExpiration then c.defaultExpiration else d
  let e : Int := if d > 0 then wrapInt64 (now + d) else 0
  { c with items := c.items.insert k { Object := v, Expiration := e } }

/-- The method `SetDefault`. -/
def GCache.SetDefault {V : Type} (c : GCache V) (now : Int) (k : String)
    (v : Option V) : GCache V :=
  c.Set now k v DefaultExpiration

/-- The method `Get`, called when the clock reads `now`. -/
def GCache.Get {V : Type} (c : GCache V) (now : Int) (k : String) : Option V × Bool :=
  match c.items.lookup k with
  | none => (none, false)
  | some v =>
    if v.Expiration > 0 then
      if now > v.Expiration then (none, false) else (v.Object, true)
    else (v.Object, true)

/-- The method `GetWithExpiration`, called when the clock reads `now`. -/
def GCache.GetWithExpiration {V : Type} (c : GCache V) (now : Int) (k : String) :
    Option V × Time × Bool :=
  match c.items.lookup k with
  | none => (none, Time.zero, false)
  | some v =>
    if v.Expiration > 0 then
      if now > v.Expiration then (none, Time.zero, false)
      else (v.Object, Time.unix v.Expiration, true)
    else (v.Object, Time.zero, true)

/-- The unexported method `delete`. -/
def GCache.delete {V : Type} (c : GCache V) (k : String) : GCache V :=
  if (c.items.lookup k).isSome then { c with items := c.items.erase k } else c

/-- The method `Delete`. -/
def GCache.Delete {V : Type} (c : GCache V) (k : String) : GCache V :=
  if (c.items.lookup k).isSome then { c with items := c.items.erase k } else c

/-- The body of the `range` loop of `DeleteExpired` for one visited entry. -/
def deleteExpiredStep {V : Type} (now : Int) (c : GCache V)
    (e : Sigma (fun _ : String => Item V)) : GCache V :=
  if e.2.Expiration > 0 ∧ now > e.2.Expiration then c.delete e.1 else c

/-- The method `DeleteExpired`, called when the clock reads `now`.  The loop
ranges over the entries the map holds on entry; it only ever deletes the key
it is visiting, so every entry is visited exactly once. -/
def GCache.DeleteExpired {V : Type} (c : GCache V) (now : Int) : GCache V :=
  c.items.entries.foldl (deleteExpiredStep now) c

/-- The body of the `range` loop of `Items` for one visited entry. -/
def itemsStep {V : Type} (now : Int) (m : ItemMap V)
    (e : Sigma (fun _ : String => Item V)) : ItemMap V :=
  if e.2.Expiration ≤ 0 ∨ now ≤ e.2.Expiration then m.insert e.1 e.2 else m

/-- The method `Items`, called when the clock reads `now`. -/
def GCache.Items {V : Type} (c : GCache V) (now : Int) : ItemMap V :=
  c.items.entries.foldl (itemsStep now) ∅

/-! ## Histories of state-changing calls -/

/-- One call of a method that can change the cache, with its clock reading. -/
inductive Op (V : Type) where
  | set (now : Int) (k : String) (v : Option V) (d : Int) : Op V
  | setDefault (now : Int) (k : String) (v : Option V) : Op V
  | delete (k : String) : Op V
  | deleteExpired (now : Int) : Op V

/-- The effect of one call on the cache. -/
def Op.apply {V : Type} (c : GCache V) : Op V → GCache V
  | Op.set now k v d => c.Set now k v d
  | Op.setDefault now k v => c.SetDefault now k v
  | Op.delete k => c.Delete k
  | Op.deleteExpired now => c.DeleteExpired now

/-- The call is a `Set`, `SetDefault` or `Delete` on key `k`. -/
def Op.writesKey {V : Type} (k : String) : Op V → Bool
  | Op.set _ k' _ _ => k' == k
  | Op.setDefault _ k' _ => k' == k
  | Op.delete k' => k' == k
  | Op.deleteExpired _ => false

/-- The cache after a sequence of calls, earliest first. -/
def GCache.run {V : Type} (c : GCache V) (ops : List (Op V)) : GCache V :=
  ops.foldl Op.apply c

/-! ## The sweeper goroutine -/

/-- A message received by the `select` statement of `Keeper.run`: a value on
`ticker.C` (with the clock reading of the `DeleteExpired` call it triggers) or
a value on `k.stopCh`. -/
inductive KeeperEvent where
  | tick (now : Int) : KeeperEvent
  | stop : KeeperEvent

/-- The state of a goroutine inside the `for` loop of `Keeper.run`: the cache it
sweeps, whether `ticker.Stop()` has been called, and how many iterations of
the loop body it has executed. -/
structure KeeperLoop (V : Type) where
  cache : GCache V
  tickerStopped : Bool
  iterations : Nat

/-- How a call of `Keeper.run` stands after the messages delivered so far:
`time.NewTicker` panicked, the goroutine is inside the loop waiting in its
`select`, or the function has returned. -/
inductive RunOutcome (V : Type) where
  | panicked : RunOutcome V
  | looping (s : KeeperLoop V) : RunOutcome V
  | returned (s : KeeperLoop V) : RunOutcome V

/-- One iteration of the `for`/`select` loop of `Keeper.run` on a received
message.  Neither case of the source returns or breaks, so the goroutine is
back in its `select` afterwards. -/
def Keeper.runStep {V : Type} (s : KeeperLoop V) : KeeperEvent → RunOutcome V
  | KeeperEvent.tick now =>
    RunOutcome.looping
      { s with cache := s.cache.DeleteExpired now, iterations := s.iterations + 1 }
  | KeeperEvent.stop =>
    RunOutcome.looping { s with tickerStopped := true, iterations := s.iterations + 1 }

/-- The loop of `Keeper.run` fed with a sequence of messages, earliest first.
A message is processed only while the goroutine is still looping. -/
def Keeper.runLoop {V : Type} : RunOutcome V → List KeeperEvent → RunOutcome V
  | RunOutcome.looping s, ev :: evs => Keeper.runLoop (Keeper.runStep s ev) evs
  | o, _ => o

/-- The method `Keeper.run`, fed with the messages its `select` receives.
`time.NewTicker(d)` panics when `d ≤ 0`. -/
def Keeper.run {V : Type} (k : Keeper) (c : GCache V) (evs : List KeeperEvent) :
    RunOutcome V :=
  if k.intervalExpire ≤ 0 then RunOutcome.panicked
  else Keeper.runLoop
    (RunOutcome.looping { cache := c, tickerStopped := false, iterations := 0 }) evs

/-- The goroutine `go c.Keeper.run(c)` started by `runKeeper`, if there is one. -/
def GCache.sweeper {V : Type} (c : GCache V) (evs : List KeeperEvent) :
    Option (RunOutcome V) :=
  c.Keeper.map (fun k => k.run c evs)

/-! ## Sets of calls -/

/-- The arguments of one call of `Set`, with its clock reading. -/
structure SetCall (V : Type) where
  now : Int
  k : String
  v : Option V
  d : Int
deriving DecidableEq

/-- The call as a step of a history. -/
def SetCall.toOp {V : Type} (s : SetCall V) : Op V := Op.set s.now s.k s.v s.d

/-- Two caches hold the same Go map (the same bindings of keys to entries,
whatever the order in which a `range` visits them) and agree on their other
fields. -/
def GCache.sameState {V : Type} (c₁ c₂ : GCache V) : Prop :=
  c₁.defaultExpiration = c₂.defaultExpiration ∧
  c₁.items.toFinmap = c₂.items.toFinmap ∧
  c₁.Keeper = c₂.Keeper

/-! ## Sample states -/

/-- A cache with one entry that expired at 50, one that expires at 200 and one
that never expires. -/
def sampleCache : GCache Nat :=
  { defaultExpiration := 0
    items := (((∅ : ItemMap Nat).insert "stale" { Object := some 1, Expiration := 50 }).insert
      "fresh" { Object := some 2, Expiration := 200 }).insert
      "forever" { Object := some 3, Expiration := 0 }
    Keeper := none }

/-- A cache whose only entry was set at time 2 with a time to live of 3. -/
def boundaryCache : GCache Nat := (NewGCache Nat 0).Set 2 "k" (some 1) 3

/-- Three `Set` calls on three distinct keys. -/
def sampleCalls : List (SetCall Nat) :=
  [{ now := 1, k := "foo0", v := some 0, d := NoExpiration },
   { now := 2, k := "foo1", v := some 1, d := NoExpiration },
   { now := 3, k := "foo2", v := some 2, d := 5 }]

/-- The calls of `sampleCalls` in another order. -/
def sampleCallsShuffled : List (SetCall Nat) :=
  [{ now := 3, k := "foo2", v := some 2, d := 5 },
   { now := 1, k := "foo0", v := some 0, d := NoExpiration },
   { now := 2, k := "foo1", v := some 1, d := NoExpiration }]

/-- A cache whose only entry was set at time 100 with a time to live of 50. -/
def ttlCache : GCache Nat := (NewGCache Nat 0).Set 100 "x" (some 9) 50

/-- A cache whose only entry was set at a present-day clock reading with the
largest `time.Duration` as its time to live. -/
def overflowCache : GCache Nat :=
  (NewGCache Nat 0).Set 1700000000000000000 "x" (some 9) (2 ^ 63 - 1)

/-! ## Lemmas about the operations -/

section Lemmas

variable {V : Type}

theorem Get_of_lookup_none (c : GCache V) (now : Int) (k : String)
    (h : c.items.lookup k = none) : c.Get now k = (none, false) := by
  simp [GCache.Get, h]

theorem Get_of_lookup_some (c : GCache V) (now : Int) (k : String) (it : Item V)
    (h : c.items.lookup k = some it) :
    c.Get now k =
      if it.Expiration > 0 ∧ now > it.Expiration then (none, false)
      else (it.Object, true) := by
  simp only [GCache.Get, h]
  by_cases h1 : it.Expiration > 0 <;> by_cases h2 : now > it.Expiration <;> simp [h1, h2]

theorem GetWithExpiration_of_lookup_some (c : GCache V) (now : Int) (k : String) (it : Item V)
    (h : c.items.lookup k = some it) :
    c.GetWithExpiration now k =
      if it.Expiration > 0 ∧ now > it.Expiration then (none, Time.zero, false)
      else (it.Object, if it.Expiration > 0 then Time.unix it.Expiration else Time.zero, true) := by
  simp only [GCache.GetWithExpiration, h]
  by_cases h1 : it.Expiration > 0 <;> by_cases h2 : now > it.Expiration <;> simp [h1, h2]

theorem delete_defaultExpiration (c : GCache V) (k : String) :
    (c.delete k).defaultExpiration = c.defaultExpiration ∧ (c.delete k).Keeper = c.Keeper := by
  unfold GCache.delete
  split <;> simp

theorem kerase_eq_filter_of_nodupKeys (k : String) :
    ∀ (l : List (Sigma (fun _ : String => Item V))), l.NodupKeys →
      List.kerase k l = l.filter (fun x => decide (k ≠ x.1))
  | [], _ => by simp
  | s :: l, nd => by
    have hnd := List.nodupKeys_cons.1 nd
    by_cases hk : k = s.1
    · rw [List.kerase_cons_eq hk, List.filter_cons_of_neg (by simp [hk])]
      symm
      rw [List.filter_eq_self]
      intro x hx
      simp only [ne_eq, decide_not, Bool.not_eq_true', decide_eq_false_iff_not]
      intro hkx
      exact hnd.1 (hk ▸ hkx ▸ List.mem_keys_of_mem hx)
    · rw [List.kerase_cons_ne hk, List.filter_cons_of_pos (by simp [hk]),
        kerase_eq_filter_of_nodupKeys k l hnd.2]

theorem delete_entries (c : GCache V) (k : String) :
    (c.delete k).items.entries = c.items.entries.filter (fun x => decide (k ≠ x.1)) := by
  unfold GCache.delete
  split
  · exact kerase_eq_filter_of_nodupKeys k _ c.items.nodupKeys
  · rename_i h
    have hk : k ∉ c.items.entries.keys := by
      intro hmem
      exact h (List.dlookup_isSome.2 hmem)
    symm
    rw [List.filter_eq_self]
    intro x hx
    simp only [ne_eq, decide_not, Bool.not_eq_true', decide_eq_false_iff_not]
    intro hkx
    exact hk (hkx ▸ List.mem_keys_of_mem hx)

theorem Delete_eq_delete (c : GCache V) (k : String) : c.Delete k = c.delete k := rfl

theorem deleteExpiredStep_entries (now : Int) (c : GCache V)
    (e : Sigma (fun _ : String => Item V)) :
    (deleteExpiredStep now c e).items.entries =
      c.items.entries.filter
        (fun x => !(decide (e.2.Expiration > 0 ∧ now > e.2.Expiration) && decide (e.1 = x.1))) := by
  unfold deleteExpiredStep
  split
  · rename_i h
    rw [delete_entries]
    apply List.filter_congr
    intro x _
    simp [h]
  · rename_i h
    symm
    rw [List.filter_eq_self]
    intro x _
    simp [h]

theorem foldl_deleteExpiredStep_entries (now : Int)
    (l : List (Sigma (fun _ : String => Item V))) (c : GCache V) :
    (l.foldl (deleteExpiredStep now) c).items.entries =
      c.items.entries.filter (fun x =>
        l.all (fun e =>
          !(decide (e.2.Expiration > 0 ∧ now > e.2.Expiration) && decide (e.1 = x.1)))) := by
  induction l generalizing c with
  | nil => simp
  | cons e l ih =>
    rw [List.foldl_cons, ih, deleteExpiredStep_entries, List.filter_filter]
    apply List.filter_congr
    intro x _
    simp only [List.all_cons]
    rw [Bool.and_comm]

theorem DeleteExpired_entries (c : GCache V) (now : Int) :
    (c.DeleteExpired now).items.entries =
      c.items.entries.filter
        (fun x => !decide (x.2.Expiration > 0 ∧ now > x.2.Expiration)) := by
  unfold GCache.DeleteExpired
  rw [foldl_deleteExpiredStep_entries]
  apply List.filter_congr
  intro x hx
  by_cases hexp : x.2.Expiration > 0 ∧ now > x.2.Expiration
  · have hr : (!decide (x.2.Expiration > 0 ∧ now > x.2.Expiration)) = false := by simp [hexp]
    rw [hr, List.all_eq_false]
    exact ⟨x, hx, by simp [hexp]⟩
  · have hr : (!decide (x.2.Expiration > 0 ∧ now > x.2.Expiration)) = true := by simp [hexp]
    rw [hr, List.all_eq_true]
    intro e he
    by_cases hk : e.1 = x.1
    · have : e = x := c.items.nodupKeys.eq_of_fst_eq he hx hk
      subst this
      simp [hexp]
    · simp [hk]


theorem dlookup_filter_of_nodupKeys (p : Sigma (fun _ : String => Item V) → Bool)
    (l : List (Sigma (fun _ : String => Item V))) (nd : l.NodupKeys) (k : String) :
    List.dlookup k (l.filter p) = (List.dlookup k l).filter (fun b => p ⟨k, b⟩) := by
  ext b
  rw [List.mem_dlookup_iff (nd.sublist (List.filter_sublist l)), Option.mem_def]
  cases h : List.dlookup k l with
  | none =>
    have hk : k ∉ l.keys := List.dlookup_eq_none.1 h
    simp only [List.mem_filter, Option.filter_none, reduceCtorEq, iff_false, not_and]
    intro hmem
    exact absurd (List.mem_keys_of_mem hmem) hk
  | some b' =>
    have hb' : Sigma.mk k b' ∈ l := (List.mem_dlookup_iff nd).1 h
    simp only [List.mem_filter, Option.filter]
    constructor
    · rintro ⟨hmem, hp⟩
      have : b = b' := nd.eq_of_mk_mem hmem hb'
      subst this
      simp [hp]
    · intro hsome
      by_cases hp : p ⟨k, b'⟩ = true
      · simp only [hp, if_true, Option.some.injEq] at hsome
        subst hsome
        exact ⟨hb', hp⟩
      · simp [hp] at hsome

theorem DeleteExpired_lookup (c : GCache V) (now : Int) (k : String) :
    (c.DeleteExpired now).items.lookup k =
      (c.items.lookup k).filter
        (fun it => !decide (it.Expiration > 0 ∧ now > it.Expiration)) := by
  unfold AList.lookup
  rw [DeleteExpired_entries, dlookup_filter_of_nodupKeys _ _ c.items.nodupKeys]

theorem foldl_deleteExpiredStep_fields (now : Int)
    (l : List (Sigma (fun _ : String => Item V))) (c : GCache V) :
    (l.foldl (deleteExpiredStep now) c).defaultExpiration = c.defaultExpiration ∧
    (l.foldl (deleteExpiredStep now) c).Keeper = c.Keeper := by
  induction l generalizing c with
  | nil => simp
  | cons e l ih =>
    rw [List.foldl_cons]
    refine ⟨(ih _).1.trans ?_, (ih _).2.trans ?_⟩
    · unfold deleteExpiredStep; split
      · exact (delete_defaultExpiration c e.1).1
      · rfl
    · unfold deleteExpiredStep; split
      · exact (delete_defaultExpiration c e.1).2
      · rfl

theorem DeleteExpired_fields (c : GCache V) (now : Int) :
    (c.DeleteExpired now).defaultExpiration = c.defaultExpiration ∧
    (c.DeleteExpired now).Keeper = c.Keeper :=
  foldl_deleteExpiredStep_fields now _ c

theorem GCache.eq_of_fields (c₁ c₂ : GCache V)
    (h₁ : c₁.defaultExpiration = c₂.defaultExpiration)
    (h₂ : c₁.items.entries = c₂.items.entries) (h₃ : c₁.Keeper = c₂.Keeper) : c₁ = c₂ := by
  cases c₁; cases c₂
  simp only at h₁ h₂ h₃
  have := AList.ext h₂
  simp [h₁, this, h₃]

theorem foldl_itemsStep_lookup (now : Int) (k : String) :
    ∀ (l : List (Sigma (fun _ : String => Item V))) (m : ItemMap V), l.NodupKeys →
      (l.foldl (itemsStep now) m).lookup k =
        match List.dlookup k l with
        | some it => if it.Expiration ≤ 0 ∨ now ≤ it.Expiration then some it else m.lookup k
        | none => m.lookup k
  | [], m, _ => by simp
  | e :: l, m, nd => by
    have hnd := List.nodupKeys_cons.1 nd
    rw [List.foldl_cons, foldl_itemsStep_lookup now k l _ hnd.2]
    by_cases hk : k = e.1
    · subst hk
      have h1 : List.dlookup e.1 l = none := List.dlookup_eq_none.2 hnd.1
      have h2 : List.dlookup e.1 (e :: l) = some e.2 := by
        cases e; exact List.dlookup_cons_eq _ _ _
      rw [h1, h2]
      simp only [itemsStep]
      split
      · simp [AList.lookup_insert]
      · rfl
    · rw [List.dlookup_cons_ne l e hk]
      have h3 : (itemsStep now m e).lookup k = m.lookup k := by
        simp only [itemsStep]
        split
        · exact AList.lookup_insert_ne hk
        · rfl
      rw [h3]

theorem Items_lookup (c : GCache V) (now : Int) (k : String) :
    (c.Items now).lookup k =
      (c.items.lookup k).filter
        (fun it => decide (it.Expiration ≤ 0 ∨ now ≤ it.Expiration)) := by
  unfold GCache.Items
  rw [foldl_itemsStep_lookup now k _ _ c.items.nodupKeys]
  show (match c.items.lookup k with
        | some it => if it.Expiration ≤ 0 ∨ now ≤ it.Expiration then some it
                     else (∅ : ItemMap V).lookup k
        | none => (∅ : ItemMap V).lookup k) = _
  cases c.items.lookup k with
  | none => simp
  | some it =>
    by_cases h : it.Expiration ≤ 0 ∨ now ≤ it.Expiration
    · simp [Option.filter, h]
    · simp [Option.filter, h]

theorem wrapInt64_of_range (x : Int) (h₁ : -2 ^ 63 ≤ x) (h₂ : x < 2 ^ 63) : wrapInt64 x = x := by
  unfold wrapInt64
  norm_num at h₁ h₂ ⊢
  omega

theorem Set_lookup_self (c : GCache V) (now : Int) (k : String) (v : Option V) (d : Int) :
    (c.Set now k v d).items.lookup k =
      some { Object := v,
             Expiration :=
               if (if d = DefaultExpiration then c.defaultExpiration else d) > 0 then
                 wrapInt64 (now + (if d = DefaultExpiration then c.defaultExpiration else d))
               else 0 } := by
  simp only [GCache.Set, AList.lookup_insert]

theorem Set_lookup_ne (c : GCache V) (now : Int) (k k' : String) (v : Option V) (d : Int)
    (h : k' ≠ k) : (c.Set now k v d).items.lookup k' = c.items.lookup k' := by
  simp only [GCache.Set, AList.lookup_insert_ne h]

theorem Delete_lookup_self (c : GCache V) (k : String) :
    (c.Delete k).items.lookup k = none := by
  unfold GCache.Delete
  split
  · exact AList.lookup_erase k _
  · rename_i h
    simpa using h

theorem Delete_lookup_ne (c : GCache V) (k k' : String) (h : k' ≠ k) :
    (c.Delete k).items.lookup k' = c.items.lookup k' := by
  unfold GCache.Delete
  split
  · exact AList.lookup_erase_ne h
  · rfl

theorem apply_lookup_of_not_writes (c : GCache V) (k : String) (op : Op V)
    (h : op.writesKey k = false) :
    (op.apply c).items.lookup k =
      match op with
      | Op.deleteExpired s =>
        (c.items.lookup k).filter (fun it => !decide (it.Expiration > 0 ∧ s > it.Expiration))
      | _ => c.items.lookup k := by
  cases op with
  | set now k' v d =>
    have hk : k ≠ k' := by
      intro e; subst e; simp [Op.writesKey] at h
    exact Set_lookup_ne c now k' k v d hk
  | setDefault now k' v =>
    have hk : k ≠ k' := by
      intro e; subst e; simp [Op.writesKey] at h
    exact Set_lookup_ne c now k' k v DefaultExpiration hk
  | delete k' =>
    have hk : k ≠ k' := by
      intro e; subst e; simp [Op.writesKey] at h
    exact Delete_lookup_ne c k' k hk
  | deleteExpired s => exact DeleteExpired_lookup c s k

theorem run_lookup_unexpiring (k : String) (it : Item V) (hit : it.Expiration ≤ 0) :
    ∀ (ops : List (Op V)) (c : GCache V), (∀ op ∈ ops, op.writesKey k = false) →
      c.items.lookup k = some it → (c.run ops).items.lookup k = some it
  | [], _, _, h => h
  | op :: ops, c, hops, h => by
    have h1 : (op.apply c).items.lookup k = some it := by
      rw [apply_lookup_of_not_writes c k op (hops op (List.mem_cons_self _ _))]
      cases op <;> simp only [h]
      have : ¬ (it.Expiration > 0) := not_lt.2 hit
      simp [Option.filter, this]
    exact run_lookup_unexpiring k it hit ops (op.apply c)
      (fun o ho => hops o (List.mem_cons_of_mem _ ho)) h1

theorem run_lookup_same_or_none (k : String) :
    ∀ (ops : List (Op V)) (c : GCache V), (∀ op ∈ ops, op.writesKey k = false) →
      (c.run ops).items.lookup k = c.items.lookup k ∨ (c.run ops).items.lookup k = none
  | [], _, _ => Or.inl rfl
  | op :: ops, c, hops => by
    have h1 : (op.apply c).items.lookup k = c.items.lookup k ∨
        (op.apply c).items.lookup k = none := by
      rw [apply_lookup_of_not_writes c k op (hops op (List.mem_cons_self _ _))]
      cases op
      case deleteExpired s =>
        cases hl : c.items.lookup k with
        | none => simp
        | some it =>
          by_cases hx : it.Expiration > 0 ∧ s > it.Expiration
          · right; simp [Option.filter, hx]
          · left; simp [Option.filter, hx]
      all_goals exact Or.inl rfl
    have ih := run_lookup_same_or_none k ops (op.apply c)
      (fun o ho => hops o (List.mem_cons_of_mem _ ho))
    show ((op.apply c).run ops).items.lookup k = _ ∨ ((op.apply c).run ops).items.lookup k = none
    rcases ih with ih | ih
    · rcases h1 with h1 | h1
      · exact Or.inl (ih.trans h1)
      · exact Or.inr (ih.trans h1)
    · exact Or.inr ih


theorem apply_fields (c : GCache V) (op : Op V) :
    (op.apply c).defaultExpiration = c.defaultExpiration ∧ (op.apply c).Keeper = c.Keeper := by
  cases op with
  | set now k v d => exact ⟨rfl, rfl⟩
  | setDefault now k v => exact ⟨rfl, rfl⟩
  | delete k => exact delete_defaultExpiration c k
  | deleteExpired now => exact DeleteExpired_fields c now

theorem run_fields :
    ∀ (ops : List (Op V)) (c : GCache V),
      (c.run ops).defaultExpiration = c.defaultExpiration ∧ (c.run ops).Keeper = c.Keeper
  | [], _ => ⟨rfl, rfl⟩
  | op :: ops, c =>
    ⟨(run_fields ops (op.apply c)).1.trans (apply_fields c op).1,
      (run_fields ops (op.apply c)).2.trans (apply_fields c op).2⟩

theorem runLoop_looping :
    ∀ (evs : List KeeperEvent) (s : KeeperLoop V),
      ∃ s', Keeper.runLoop (RunOutcome.looping s) evs = RunOutcome.looping s' ∧
        s'.iterations = s.iterations + evs.length ∧
        (s.tickerStopped = true ∨ KeeperEvent.stop ∈ evs → s'.tickerStopped = true)
  | [], s => ⟨s, rfl, rfl, fun h => h.elim id (fun h' => absurd h' (List.not_mem_nil _))⟩
  | ev :: evs, s => by
    cases ev with
    | tick now =>
      obtain ⟨s', h1, h2, h3⟩ := runLoop_looping evs
        { s with cache := s.cache.DeleteExpired now, iterations := s.iterations + 1 }
      refine ⟨s', h1, ?_, ?_⟩
      · rw [h2]; simp only [List.length_cons]; omega
      · intro h
        apply h3
        rcases h with h | h
        · exact Or.inl h
        · simp only [List.mem_cons, reduceCtorEq, false_or] at h
          exact Or.inr h
    | stop =>
      obtain ⟨s', h1, h2, h3⟩ := runLoop_looping evs
        { s with tickerStopped := true, iterations := s.iterations + 1 }
      refine ⟨s', h1, ?_, fun _ => h3 (Or.inl rfl)⟩
      rw [h2]; simp only [List.length_cons]; omega

theorem foldl_itemsStep_filter (now : Int)
    (p : Sigma (fun _ : String => Item V) → Bool)
    (hp : ∀ e, p e = false → ¬ (e.2.Expiration ≤ 0 ∨ now ≤ e.2.Expiration)) :
    ∀ (l : List (Sigma (fun _ : String => Item V))) (m : ItemMap V),
      (l.filter p).foldl (itemsStep now) m = l.foldl (itemsStep now) m
  | [], _ => rfl
  | e :: l, m => by
    by_cases h : p e = true
    · rw [List.filter_cons_of_pos h, List.foldl_cons, List.foldl_cons,
        foldl_itemsStep_filter now p hp l]
    · have h' : p e = false := by simpa using h
      rw [List.filter_cons_of_neg h, List.foldl_cons, foldl_itemsStep_filter now p hp l]
      have : itemsStep now m e = m := by
        unfold itemsStep
        rw [if_neg (hp e h')]
      rw [this]

theorem mem_Items_iff (c : GCache V) (now : Int) (k : String) :
    k ∈ c.Items now ↔
      ∃ it, c.items.lookup k = some it ∧ (it.Expiration ≤ 0 ∨ now ≤ it.Expiration) := by
  rw [← AList.lookup_isSome, Items_lookup]
  cases c.items.lookup k with
  | none => simp
  | some it =>
    by_cases hl : it.Expiration ≤ 0 ∨ now ≤ it.Expiration
    · simp [Option.filter, hl]
    · simp [Option.filter, hl]

theorem DeleteExpired_Get (c : GCache V) (t t' : Int) (h : t ≤ t') (k : String) :
    (c.DeleteExpired t).items.lookup k = c.items.lookup k ∨
    ((c.DeleteExpired t).items.lookup k = none ∧
      ∃ it, c.items.lookup k = some it ∧ it.Expiration > 0 ∧ t' > it.Expiration) := by
  rw [DeleteExpired_lookup]
  cases hl : c.items.lookup k with
  | none => left; rfl
  | some it =>
    by_cases hx : it.Expiration > 0 ∧ t > it.Expiration
    · right
      refine ⟨by simp [Option.filter, hx], it, rfl, hx.1, by omega⟩
    · left; simp [Option.filter, hx]

theorem Delete_fields (c : GCache V) (k : String) :
    (c.Delete k).defaultExpiration = c.defaultExpiration ∧ (c.Delete k).Keeper = c.Keeper :=
  delete_defaultExpiration c k

theorem sameState_of_lookup (c₁ c₂ : GCache V)
    (h₁ : c₁.defaultExpiration = c₂.defaultExpiration)
    (h₂ : ∀ x, c₁.items.lookup x = c₂.items.lookup x) (h₃ : c₁.Keeper = c₂.Keeper) :
    c₁.sameState c₂ := by
  refine ⟨h₁, Finmap.ext_lookup (fun x => ?_), h₃⟩
  rw [Finmap.lookup_toFinmap, Finmap.lookup_toFinmap]
  exact h₂ x

theorem Set_Set_lookup_comm (c : GCache V) (k₁ k₂ : String) (h : k₁ ≠ k₂)
    (t₁ t₂ d₁ d₂ : Int) (v₁ v₂ : Option V) (x : String) :
    ((c.Set t₁ k₁ v₁ d₁).Set t₂ k₂ v₂ d₂).items.lookup x =
      ((c.Set t₂ k₂ v₂ d₂).Set t₁ k₁ v₁ d₁).items.lookup x := by
  by_cases h2 : x = k₂
  · subst h2
    rw [Set_lookup_self, Set_lookup_ne _ t₁ k₁ x v₁ d₁ (Ne.symm h), Set_lookup_self]
    rfl
  · by_cases h1 : x = k₁
    · subst h1
      rw [Set_lookup_ne _ t₂ k₂ x v₂ d₂ h2, Set_lookup_self, Set_lookup_self]
      rfl
    · rw [Set_lookup_ne _ t₂ k₂ x v₂ d₂ h2, Set_lookup_ne _ t₁ k₁ x v₁ d₁ h1,
        Set_lookup_ne _ t₁ k₁ x v₁ d₁ h1, Set_lookup_ne _ t₂ k₂ x v₂ d₂ h2]

theorem Delete_Delete_lookup_comm (c : GCache V) (k₁ k₂ : String) (x : String) :
    ((c.Delete k₁).Delete k₂).items.lookup x = ((c.Delete k₂).Delete k₁).items.lookup x := by
  by_cases h2 : x = k₂
  · subst h2
    rw [Delete_lookup_self]
    by_cases h1 : x = k₁
    · subst h1; rw [Delete_lookup_self]
    · rw [Delete_lookup_ne _ k₁ x h1, Delete_lookup_self]
  · rw [Delete_lookup_ne _ k₂ x h2]
    by_cases h1 : x = k₁
    · subst h1; rw [Delete_lookup_self, Delete_lookup_self]
    · rw [Delete_lookup_ne _ k₁ x h1, Delete_lookup_ne _ k₁ x h1, Delete_lookup_ne _ k₂ x h2]

theorem Set_Delete_lookup_comm (c : GCache V) (k₁ k₂ : String) (h : k₁ ≠ k₂)
    (t₁ d₁ : Int) (v₁ : Option V) (x : String) :
    ((c.Set t₁ k₁ v₁ d₁).Delete k₂).items.lookup x =
      ((c.Delete k₂).Set t₁ k₁ v₁ d₁).items.lookup x := by
  have hde : (c.Delete k₂).defaultExpiration = c.defaultExpiration :=
    (delete_defaultExpiration c k₂).1
  by_cases h2 : x = k₂
  · subst h2
    rw [Delete_lookup_self, Set_lookup_ne _ t₁ k₁ x v₁ d₁ (Ne.symm h), Delete_lookup_self]
  · rw [Delete_lookup_ne _ k₂ x h2]
    by_cases h1 : x = k₁
    · subst h1
      rw [Set_lookup_self, Set_lookup_self, hde]
    · rw [Set_lookup_ne _ t₁ k₁ x v₁ d₁ h1, Set_lookup_ne _ t₁ k₁ x v₁ d₁ h1,
        Delete_lookup_ne _ k₂ x h2]

theorem run_sets_lookup_of_not_mem (x : String) :
    ∀ (calls : List (SetCall V)) (c : GCache V), x ∉ calls.map SetCall.k →
      (c.run (calls.map SetCall.toOp)).items.lookup x = c.items.lookup x
  | [], _, _ => rfl
  | s :: calls, c, h => by
    have hx : x ≠ s.k := fun e => h (by simp [e])
    have hr : x ∉ calls.map SetCall.k := fun e => h (by simp at e ⊢; exact Or.inr e)
    show ((c.Set s.now s.k s.v s.d).run (calls.map SetCall.toOp)).items.lookup x = _
    rw [run_sets_lookup_of_not_mem x calls _ hr, Set_lookup_ne _ _ _ _ _ _ hx]

theorem run_sets_lookup_of_mem (s : SetCall V) :
    ∀ (calls : List (SetCall V)) (c : GCache V), (calls.map SetCall.k).Nodup → s ∈ calls →
      (c.run (calls.map SetCall.toOp)).items.lookup s.k =
        (c.Set s.now s.k s.v s.d).items.lookup s.k
  | [], _, _, h => absurd h (List.not_mem_nil _)
  | s₀ :: calls, c, nd, h => by
    rw [List.map_cons, List.nodup_cons] at nd
    show ((c.Set s₀.now s₀.k s₀.v s₀.d).run (calls.map SetCall.toOp)).items.lookup s.k = _
    rcases List.mem_cons.1 h with e | hm
    · subst e
      rw [run_sets_lookup_of_not_mem s.k calls _ nd.1]
    · rw [run_sets_lookup_of_mem s calls _ nd.2 hm, Set_lookup_self, Set_lookup_self]
      rfl

end Lemmas

/-! ## Claims -/

/-- C1: `Get(k)` returns `(nil, false)` if and only if `k` is absent from the
map or the stored entry has `Expiration > 0` and `now > Expiration`; in every
other case it returns the stored `Object` together with `true`. -/
theorem C1_Get_found_iff {V : Type} (c : GCache V) (now : Int) (k : String) :
    ((c.Get now k).2 = false ↔
        (c.items.lookup k = none ∨
          ∃ it, c.items.lookup k = some it ∧ it.Expiration > 0 ∧ now > it.Expiration)) ∧
    ((c.Get now k).2 = false → (c.Get now k).1 = none) ∧
    (∀ it, c.items.lookup k = some it → ¬ (it.Expiration > 0 ∧ now > it.Expiration) →
        c.Get now k = (it.Object, true)) := by
  cases h : c.items.lookup k with
  | none => simp [Get_of_lookup_none c now k h]
  | some it =>
    rw [Get_of_lookup_some c now k it h]
    by_cases hx : it.Expiration > 0 ∧ now > it.Expiration
    · simp [hx]
    · simp only [if_neg hx]
      refine ⟨?_, ?_, ?_⟩
      · simp only [Bool.true_eq_false, false_iff]
        rintro (h0 | ⟨it', h1, h2⟩)
        · cases h0
        · cases h1; exact hx h2
      · simp
      · intro it' h1 _; cases h1; rfl


/-- C1 at a cache holding one expired and one unexpired key. -/
theorem C1_Get_found_iff_witness :
    (sampleCache.Get 100 "stale").2 = false ∧ (sampleCache.Get 100 "stale").1 = none ∧
    sampleCache.Get 100 "fresh" = (some 2, true) ∧
    sampleCache.Get 100 "missing" = (none, false) :=
  ⟨(C1_Get_found_iff sampleCache 100 "stale").1.2
      (Or.inr ⟨⟨some 1, 50⟩, by decide, by decide, by decide⟩),
    (C1_Get_found_iff sampleCache 100 "stale").2.1 (by decide),
    (C1_Get_found_iff sampleCache 100 "fresh").2.2 ⟨some 2, 200⟩ (by decide) (by decide),
    by decide⟩

/-- C2: after `Set(k, v, NoExpiration)` at time `t`, and after any further
calls that are not a `Set`, `SetDefault` or `Delete` of `k` (sweeps at any
time included), `Get(k)` at every time `t'` returns `(v, true)`. -/
theorem C2_Set_NoExpiration_never_expires {V : Type} (c : GCache V) (t t' : Int)
    (k : String) (v : Option V) (ops : List (Op V))
    (hops : ∀ op ∈ ops, op.writesKey k = false) :
    ((c.Set t k v NoExpiration).run ops).Get t' k = (v, true) := by
  have h0 : (c.Set t k v NoExpiration).items.lookup k = some { Object := v, Expiration := 0 } := by
    rw [Set_lookup_self]
    simp [NoExpiration, DefaultExpiration]
  have h1 := run_lookup_unexpiring k { Object := v, Expiration := 0 } (le_refl _) ops _ hops h0
  rw [Get_of_lookup_some _ t' k _ h1]
  simp

/-- C2 on a fresh cache, with a sweep and a write to another key in between. -/
theorem C2_Set_NoExpiration_never_expires_witness :
    (∀ op ∈ [Op.deleteExpired 1000, Op.set 20 "bar" (some 2) 5],
        Op.writesKey "foo" (op : Op Nat) = false) ∧
    (((NewGCache Nat 7).Set 10 "foo" (some 1) NoExpiration).run
        [Op.deleteExpired 1000, Op.set 20 "bar" (some 2) 5]).Get 1000000 "foo"
      = (some 1, true) :=
  ⟨by decide, C2_Set_NoExpiration_never_expires _ 10 1000000 "foo" (some 1) _ (by decide)⟩

/-- C3: for `d > 0`, `t > 0` and `t + d` within `int64`: after `Set(k, v, d)`
at time `t`, `Get(k)` at the same instant returns `(v, true)`; and after any
further calls that do not write `k` (sweeps at any time included, or none),
`Get(k)` at any `t' > t + d` returns `(nil, false)`. -/
theorem C3_Set_ttl_expires {V : Type} (c : GCache V) (t d : Int) (k : String)
    (v : Option V) (hd : d > 0) (ht : t > 0) (hov : t + d < 2 ^ 63) :
    (c.Set t k v d).Get t k = (v, true) ∧
    ∀ (ops : List (Op V)) (t' : Int), (∀ op ∈ ops, op.writesKey k = false) → t' > t + d →
      ((c.Set t k v d).run ops).Get t' k = (none, false) := by
  have hd0 : d ≠ DefaultExpiration := by
    unfold DefaultExpiration; omega
  have hw : wrapInt64 (t + d) = t + d :=
    wrapInt64_of_range _ (by norm_num; omega) hov
  have h0 : (c.Set t k v d).items.lookup k = some { Object := v, Expiration := t + d } := by
    rw [Set_lookup_self]
    simp [hd0, hd, hw]
  refine ⟨?_, ?_⟩
  · rw [Get_of_lookup_some _ t k _ h0]
    have : ¬ (t + d > 0 ∧ t > t + d) := by omega
    simp only [this, if_false]
  · intro ops t' hops ht'
    rcases run_lookup_same_or_none k ops (c.Set t k v d) hops with h | h
    · rw [Get_of_lookup_some _ t' k _ (h.trans h0)]
      have : t + d > 0 ∧ t' > t + d := ⟨by omega, ht'⟩
      simp only [this, and_self, if_true]
    · exact Get_of_lookup_none _ t' k h

/-- C3 on a fresh cache: read at once, then read late with and without a sweep. -/
theorem C3_Set_ttl_expires_witness :
    ((50 : Int) > 0 ∧ (100 : Int) > 0 ∧ (100 : Int) + 50 < 2 ^ 63) ∧
    ((NewGCache Nat 0).Set 100 "x" (some 9) 50).Get 100 "x" = (some 9, true) ∧
    (((NewGCache Nat 0).Set 100 "x" (some 9) 50).run []).Get 151 "x" = (none, false) ∧
    (((NewGCache Nat 0).Set 100 "x" (some 9) 50).run [Op.deleteExpired 120]).Get 151 "x"
      = (none, false) :=
  ⟨by decide,
    (C3_Set_ttl_expires (NewGCache Nat 0) 100 50 "x" (some 9)
      (by decide) (by decide) (by decide)).1,
    (C3_Set_ttl_expires (NewGCache Nat 0) 100 50 "x" (some 9)
      (by decide) (by decide) (by decide)).2 [] 151 (by decide) (by decide),
    (C3_Set_ttl_expires (NewGCache Nat 0) 100 50 "x" (some 9)
      (by decide) (by decide) (by decide)).2 [Op.deleteExpired 120] 151 (by decide) (by decide)⟩


/-- C4 as stated fails at the boundary: an entry with `Expiration = 5 > 0` read
at `now = 5` satisfies neither `Expiration > now` nor the no-expiration
encoding `Expiration ≤ 0`, yet `Get` and `GetWithExpiration` find it and
`Items` returns it. -/
theorem C4_boundary_counterexample :
    boundaryCache.items.lookup "k" = some { Object := some 1, Expiration := 5 } ∧
    ¬ ((5 : Int) > 5 ∨ (5 : Int) ≤ 0) ∧
    (boundaryCache.Get 5 "k").2 = true ∧
    (boundaryCache.GetWithExpiration 5 "k").2.2 = true ∧
    (boundaryCache.Items 5).lookup "k" = some { Object := some 1, Expiration := 5 } := by
  decide

/-- C4 (amended): a stored entry is live exactly when `Expiration ≤ 0` (no
expiration) or `now ≤ Expiration`.  A live entry, the boundary
`Expiration = now` included, is returned by `Get`, `GetWithExpiration` and
`Items`; an entry that is not live is treated as absent by all three. -/
theorem C4_live_entries_read_paths {V : Type} (c : GCache V) (now : Int) (k : String)
    (it : Item V) (h : c.items.lookup k = some it) :
    ((it.Expiration ≤ 0 ∨ now ≤ it.Expiration) →
        c.Get now k = (it.Object, true) ∧
        (c.GetWithExpiration now k).1 = it.Object ∧ (c.GetWithExpiration now k).2.2 = true ∧
        (c.Items now).lookup k = some it) ∧
    (¬ (it.Expiration ≤ 0 ∨ now ≤ it.Expiration) →
        c.Get now k = (none, false) ∧
        (c.GetWithExpiration now k).1 = none ∧ (c.GetWithExpiration now k).2.2 = false ∧
        (c.Items now).lookup k = none) := by
  constructor
  · intro hl
    have hx : ¬ (it.Expiration > 0 ∧ now > it.Expiration) := by omega
    refine ⟨?_, ?_, ?_, ?_⟩
    · rw [Get_of_lookup_some c now k it h, if_neg hx]
    · rw [GetWithExpiration_of_lookup_some c now k it h, if_neg hx]
    · rw [GetWithExpiration_of_lookup_some c now k it h, if_neg hx]
    · rw [Items_lookup, h]
      simp [Option.filter, hl]
  · intro hl
    have hx : it.Expiration > 0 ∧ now > it.Expiration := by omega
    refine ⟨?_, ?_, ?_, ?_⟩
    · rw [Get_of_lookup_some c now k it h, if_pos hx]
    · rw [GetWithExpiration_of_lookup_some c now k it h, if_pos hx]
    · rw [GetWithExpiration_of_lookup_some c now k it h, if_pos hx]
    · rw [Items_lookup, h]
      simp [Option.filter, hl]

/-- C4 (amended) at the boundary instant and one nanosecond later. -/
theorem C4_live_entries_read_paths_witness :
    boundaryCache.items.lookup "k" = some { Object := some 1, Expiration := 5 } ∧
    (boundaryCache.Get 5 "k" = (some 1, true) ∧
      (boundaryCache.GetWithExpiration 5 "k").1 = some 1 ∧
      (boundaryCache.GetWithExpiration 5 "k").2.2 = true ∧
      (boundaryCache.Items 5).lookup "k" = some { Object := some 1, Expiration := 5 }) ∧
    (boundaryCache.Get 6 "k" = (none, false) ∧
      (boundaryCache.GetWithExpiration 6 "k").1 = none ∧
      (boundaryCache.GetWithExpiration 6 "k").2.2 = false ∧
      (boundaryCache.Items 6).lookup "k" = none) :=
  ⟨by decide,
    (C4_live_entries_read_paths boundaryCache 5 "k" { Object := some 1, Expiration := 5 }
      (by decide)).1 (by decide),
    (C4_live_entries_read_paths boundaryCache 6 "k" { Object := some 1, Expiration := 5 }
      (by decide)).2 (by decide)⟩

/-- C5: `Items()` returns exactly the live entries: `k` is a key of the
returned map if and only if `Get(k)` at the same `now` finds it, and every
returned `Item` is the stored `Item`, whose `Object` is the value `Get`
returns. -/
theorem C5_Items_exactly_live {V : Type} (c : GCache V) (now : Int) (k : String) :
    (k ∈ c.Items now ↔ (c.Get now k).2 = true) ∧
    (∀ it, (c.Items now).lookup k = some it →
        c.items.lookup k = some it ∧ c.Get now k = (it.Object, true)) := by
  rw [← AList.lookup_isSome, Items_lookup]
  cases h : c.items.lookup k with
  | none => simp [Get_of_lookup_none c now k h]
  | some it' =>
    rw [Get_of_lookup_some c now k it' h]
    by_cases hl : it'.Expiration ≤ 0 ∨ now ≤ it'.Expiration
    · have hx : ¬ (it'.Expiration > 0 ∧ now > it'.Expiration) := by omega
      simp only [Option.filter, hl, decide_True, if_true, Option.isSome_some, if_neg hx,
        true_iff, Option.some.injEq, true_and]
      intro it e
      subst e
      exact ⟨rfl, rfl⟩
    · have hx : it'.Expiration > 0 ∧ now > it'.Expiration := by omega
      simp [Option.filter, hl, hx]

/-- C5 on a cache with an expired, an unexpired and a never-expiring entry. -/
theorem C5_Items_exactly_live_witness :
    "fresh" ∈ sampleCache.Items 100 ∧ ¬ ("stale" ∈ sampleCache.Items 100) ∧
    (sampleCache.items.lookup "forever" = some { Object := some 3, Expiration := 0 } ∧
      sampleCache.Get 100 "forever" = (some 3, true)) :=
  ⟨(C5_Items_exactly_live sampleCache 100 "fresh").1.2 (by decide),
    fun hm => absurd ((C5_Items_exactly_live sampleCache 100 "stale").1.1 hm) (by decide),
    (C5_Items_exactly_live sampleCache 100 "forever").2 { Object := some 3, Expiration := 0 }
      (by decide)⟩

/-- C6: after `DeleteExpired()` at time `now` the map holds exactly the
entries of the original map that do not satisfy `Expiration > 0` and
`now > Expiration`, each with its `Object` and `Expiration` unchanged; the
other fields of the cache are unchanged. -/
theorem C6_DeleteExpired_exact {V : Type} (c : GCache V) (now : Int) (k : String) :
    (c.DeleteExpired now).items.lookup k =
      (match c.items.lookup k with
        | none => none
        | some it => if it.Expiration > 0 ∧ now > it.Expiration then none else some it) ∧
    (c.DeleteExpired now).defaultExpiration = c.defaultExpiration ∧
    (c.DeleteExpired now).Keeper = c.Keeper := by
  refine ⟨?_, DeleteExpired_fields c now⟩
  rw [DeleteExpired_lookup]
  cases c.items.lookup k with
  | none => rfl
  | some it =>
    by_cases hx : it.Expiration > 0 ∧ now > it.Expiration
    · simp [Option.filter, hx]
    · simp [Option.filter, hx]

/-- C7: for `t ≤ t'`, `DeleteExpired` at `t` followed by `DeleteExpired` at
`t'` leaves the same cache as a single `DeleteExpired` at `t'`; with `t = t'`
this is idempotence. -/
theorem C7_DeleteExpired_absorbs {V : Type} (c : GCache V) (t t' : Int) (h : t ≤ t') :
    (c.DeleteExpired t).DeleteExpired t' = c.DeleteExpired t' := by
  apply GCache.eq_of_fields
  · rw [(DeleteExpired_fields _ t').1, (DeleteExpired_fields c t).1, (DeleteExpired_fields c t').1]
  · rw [DeleteExpired_entries, DeleteExpired_entries, DeleteExpired_entries, List.filter_filter]
    apply List.filter_congr
    intro x _
    by_cases h1 : x.2.Expiration > 0 ∧ t' > x.2.Expiration
    · simp [h1]
    · have h2 : ¬ (x.2.Expiration > 0 ∧ t > x.2.Expiration) := by omega
      simp [h1, h2]
  · rw [(DeleteExpired_fields _ t').2, (DeleteExpired_fields c t).2, (DeleteExpired_fields c t').2]

/-- C7 on a cache with an expired, an unexpired and a never-expiring entry. -/
theorem C7_DeleteExpired_absorbs_witness :
    (100 : Int) ≤ 300 ∧
    (sampleCache.DeleteExpired 100).DeleteExpired 300 = sampleCache.DeleteExpired 300 ∧
    (sampleCache.DeleteExpired 100).DeleteExpired 100 = sampleCache.DeleteExpired 100 :=
  ⟨by decide, C7_DeleteExpired_absorbs sampleCache 100 300 (by decide),
    C7_DeleteExpired_absorbs sampleCache 100 100 (le_refl _)⟩


/-- C8: `Delete(k)` yields the original map with `k` erased: afterwards `k` is
unbound and `Get(k)` returns `(nil, false)` at every time; every other key
keeps its stored entry, hence its `Get` result at every time; the other fields
of the cache are unchanged; and when `k` was absent the cache is unchanged. -/
theorem C8_Delete_frame {V : Type} (c : GCache V) (k : String) :
    (c.Delete k).items.lookup k = none ∧
    (∀ now, (c.Delete k).Get now k = (none, false)) ∧
    (∀ k', k' ≠ k →
        (c.Delete k).items.lookup k' = c.items.lookup k' ∧
        ∀ now, (c.Delete k).Get now k' = c.Get now k') ∧
    (c.Delete k).defaultExpiration = c.defaultExpiration ∧
    (c.Delete k).Keeper = c.Keeper ∧
    (c.items.lookup k = none → c.Delete k = c) := by
  refine ⟨Delete_lookup_self c k, fun now => Get_of_lookup_none _ now k (Delete_lookup_self c k),
    ?_, (delete_defaultExpiration c k).1, (delete_defaultExpiration c k).2, ?_⟩
  · intro k' hk
    have hl := Delete_lookup_ne c k k' hk
    refine ⟨hl, fun now => ?_⟩
    simp only [GCache.Get, hl]
  · intro h
    simp [GCache.Delete, h]

/-- C8 on a three-entry cache, and on an empty cache. -/
theorem C8_Delete_frame_witness :
    (sampleCache.Delete "fresh").Get 100 "fresh" = (none, false) ∧
    ("forever" ≠ "fresh" ∧
      (sampleCache.Delete "fresh").Get 100 "forever" = sampleCache.Get 100 "forever") ∧
    ((NewGCache Nat 0).items.lookup "foo" = none ∧
      (NewGCache Nat 0).Delete "foo" = NewGCache Nat 0) :=
  ⟨(C8_Delete_frame sampleCache "fresh").2.1 100,
    ⟨by decide, ((C8_Delete_frame sampleCache "fresh").2.2.1 "forever" (by decide)).2 100⟩,
    ⟨by decide, (C8_Delete_frame (NewGCache Nat 0) "foo").2.2.2.2.2 (by decide)⟩⟩

/-- C9 as stated fails for some set times: with default duration
`2^63 - 1 > 0` and a clock reading of 1700000000000000000 the sum overflows
`int64` and the stored `Expiration` is negative, not `t + de`; and with
default duration 5 and a clock reading of -5 the stored `Expiration` is 0. -/
theorem C9_stored_expiration_counterexample :
    ((2 : Int) ^ 63 - 1 > 0 ∧
      ((NewGCache Nat (2 ^ 63 - 1)).Set 1700000000000000000 "k" (some 1)
          DefaultExpiration).items.lookup "k"
        = some { Object := some 1, Expiration := -7523372036854775809 } ∧
      (-7523372036854775809 : Int) ≠ 1700000000000000000 + (2 ^ 63 - 1)) ∧
    ((5 : Int) > 0 ∧
      ((NewGCache Nat 5).Set (-5) "k" (some 1) DefaultExpiration).items.lookup "k"
        = some { Object := some 1, Expiration := 0 }) := by
  decide

/-- C9 (amended): `Set(k, v, DefaultExpiration)` produces the same cache as
`Set(k, v, de)` for the configured default `de`, and `SetDefault(k, v)` the
same cache as `Set(k, v, DefaultExpiration)`; when `de > 0`, the clock reading
`t` is an `int64`, `t + de` does not overflow `int64` and `t ≠ -de`, the
stored `Expiration` is `t + de` and is non-zero. -/
theorem C9_default_expiration_substituted {V : Type} (c : GCache V) (t : Int) (k : String)
    (v : Option V) :
    c.Set t k v DefaultExpiration = c.Set t k v c.defaultExpiration ∧
    c.SetDefault t k v = c.Set t k v DefaultExpiration ∧
    (c.defaultExpiration > 0 → -2 ^ 63 ≤ t → t + c.defaultExpiration < 2 ^ 63 →
      t ≠ -c.defaultExpiration →
        (c.Set t k v DefaultExpiration).items.lookup k =
          some { Object := v, Expiration := t + c.defaultExpiration } ∧
        t + c.defaultExpiration ≠ 0) := by
  refine ⟨?_, rfl, ?_⟩
  · by_cases h : c.defaultExpiration = DefaultExpiration
    · rw [h]
    · simp [GCache.Set, h]
  · intro hde hlo hhi hne
    have hw : wrapInt64 (t + c.defaultExpiration) = t + c.defaultExpiration :=
      wrapInt64_of_range _ (by omega) hhi
    refine ⟨?_, by omega⟩
    rw [Set_lookup_self]
    simp [hde, hw]

/-- C9 (amended) on a cache with default duration 10, set at time 100. -/
theorem C9_default_expiration_substituted_witness :
    ((NewGCache Nat 10).defaultExpiration > 0 ∧ -2 ^ 63 ≤ (100 : Int) ∧
      (100 : Int) + (NewGCache Nat 10).defaultExpiration < 2 ^ 63 ∧
      (100 : Int) ≠ -(NewGCache Nat 10).defaultExpiration) ∧
    ((NewGCache Nat 10).Set 100 "foo" (some 1) DefaultExpiration).items.lookup "foo" =
      some { Object := some 1, Expiration := 100 + (NewGCache Nat 10).defaultExpiration } ∧
    (100 : Int) + (NewGCache Nat 10).defaultExpiration ≠ 0 :=
  ⟨by decide,
    (C9_default_expiration_substituted (NewGCache Nat 10) 100 "foo" (some 1)).2.2
      (by decide) (by decide) (by decide) (by decide)⟩

/-- C10: `GetWithExpiration(k)` returns the same value and found flag as
`Get(k)` at the same `now`; the returned instant is `time.Unix(0, Expiration)`
when the entry is found and has `Expiration > 0`, and the zero instant when
the entry has no expiration or the result is not found. -/
theorem C10_GetWithExpiration_refines_Get {V : Type} (c : GCache V) (now : Int) (k : String) :
    ((c.GetWithExpiration now k).1, (c.GetWithExpiration now k).2.2) = c.Get now k ∧
    (∀ it, c.items.lookup k = some it → (c.Get now k).2 = true → it.Expiration > 0 →
        (c.GetWithExpiration now k).2.1 = Time.unix it.Expiration) ∧
    (∀ it, c.items.lookup k = some it → ¬ (it.Expiration > 0) →
        (c.GetWithExpiration now k).2.1 = Time.zero) ∧
    ((c.Get now k).2 = false → (c.GetWithExpiration now k).2.1 = Time.zero) := by
  cases h : c.items.lookup k with
  | none => simp [GCache.Get, GCache.GetWithExpiration, h]
  | some it' =>
    rw [Get_of_lookup_some c now k it' h, GetWithExpiration_of_lookup_some c now k it' h]
    by_cases hx : it'.Expiration > 0 ∧ now > it'.Expiration
    · simp only [if_pos hx, Option.some.injEq, Bool.false_eq_true, false_implies, implies_true,
        true_and, forall_eq']
    · simp only [if_neg hx, Option.some.injEq, forall_eq', true_implies, Bool.true_eq_false,
        false_implies, and_true, true_and]
      constructor
      · intro hp; simp [hp]
      · intro hn; simp [hn]

/-- C10 on a cache with an expired, an unexpired and a never-expiring entry. -/
theorem C10_GetWithExpiration_refines_Get_witness :
    (sampleCache.GetWithExpiration 100 "fresh").2.1 = Time.unix 200 ∧
    (sampleCache.GetWithExpiration 100 "forever").2.1 = Time.zero ∧
    (sampleCache.GetWithExpiration 100 "stale").2.1 = Time.zero :=
  ⟨(C10_GetWithExpiration_refines_Get sampleCache 100 "fresh").2.1
      { Object := some 2, Expiration := 200 } (by decide) (by decide) (by decide),
    (C10_GetWithExpiration_refines_Get sampleCache 100 "forever").2.2.1
      { Object := some 3, Expiration := 0 } (by decide) (by decide),
    (C10_GetWithExpiration_refines_Get sampleCache 100 "stale").2.2.2 (by decide)⟩


/-- C11 as stated fails: read at the set instant (`now = t = 100`, `d = 50`)
the returned instant is 150, which is `now + d` and not below it; read at
`now = t + d = 150` the entry is still found and the returned instant is 150,
which is `now` and not above it; and with `d = 2^63 - 1` at a present-day
clock reading the sum overflows `int64`, the entry is found and the returned
instant is the zero instant. -/
theorem C11_strict_bounds_counterexample :
    (ttlCache.GetWithExpiration 100 "x" = (some 9, Time.unix 150, true) ∧
      ¬ ((150 : Int) < 100 + 50)) ∧
    (ttlCache.GetWithExpiration 150 "x" = (some 9, Time.unix 150, true) ∧
      ¬ ((150 : Int) < 150)) ∧
    ((2 : Int) ^ 63 - 1 > 0 ∧
      overflowCache.GetWithExpiration 1700000000000000001 "x" = (some 9, Time.zero, true)) := by
  decide

/-- C11 (amended): for `d > 0`, `t > 0`, `t + d` within `int64` and a read time
`now ≥ t` at which the entry is still found (after any calls that do not write
`k`): after `Set(k, v, d)` at `t`, `GetWithExpiration(k)` at `now` returns the
instant `t + d`, and `now ≤ t + d ≤ now + d`.  After `Set(k, v, NoExpiration)`
it returns `v`, the zero instant and `true`. -/
theorem C11_expiration_instant_bounds {V : Type} (c : GCache V) (t d : Int) (k : String)
    (v : Option V) (ops : List (Op V)) (hops : ∀ op ∈ ops, op.writesKey k = false) :
    (∀ now, d > 0 → t > 0 → t + d < 2 ^ 63 → t ≤ now →
        (((c.Set t k v d).run ops).GetWithExpiration now k).2.2 = true →
        (((c.Set t k v d).run ops).GetWithExpiration now k).2.1 = Time.unix (t + d) ∧
        now ≤ t + d ∧ t + d ≤ now + d) ∧
    (∀ now, ((c.Set t k v NoExpiration).run ops).GetWithExpiration now k
        = (v, Time.zero, true)) := by
  constructor
  · intro now hd ht hov hnow hfound
    have hd0 : d ≠ DefaultExpiration := by
      unfold DefaultExpiration; omega
    have hw : wrapInt64 (t + d) = t + d :=
      wrapInt64_of_range _ (by norm_num; omega) hov
    have h0 : (c.Set t k v d).items.lookup k = some { Object := v, Expiration := t + d } := by
      rw [Set_lookup_self]
      simp [hd0, hd, hw]
    rcases run_lookup_same_or_none k ops (c.Set t k v d) hops with h | h
    · rw [GetWithExpiration_of_lookup_some _ now k _ (h.trans h0)] at hfound ⊢
      by_cases hx : t + d > 0 ∧ now > t + d
      · simp [hx] at hfound
      · have hpos : t + d > 0 := by omega
        simp only [if_neg hx, if_pos hpos, true_and]
        omega
    · simp [GCache.GetWithExpiration, h] at hfound
  · intro now
    have h0 : (c.Set t k v NoExpiration).items.lookup k =
        some { Object := v, Expiration := 0 } := by
      rw [Set_lookup_self]
      simp [NoExpiration, DefaultExpiration]
    have h1 := run_lookup_unexpiring k { Object := v, Expiration := 0 } (le_refl _) ops _ hops h0
    rw [GetWithExpiration_of_lookup_some _ now k _ h1]
    simp

/-- C11 (amended) on a fresh cache, read 20 after a set with time to live 50. -/
theorem C11_expiration_instant_bounds_witness :
    (∀ op ∈ [Op.deleteExpired 110], Op.writesKey "x" (op : Op Nat) = false) ∧
    (((((NewGCache Nat 0).Set 100 "x" (some 9) 50).run
        [Op.deleteExpired 110]).GetWithExpiration 120 "x").2.1 = Time.unix (100 + 50) ∧
      (120 : Int) ≤ 100 + 50 ∧ (100 : Int) + 50 ≤ 120 + 50) ∧
    (((NewGCache Nat 0).Set 100 "x" (some 9) NoExpiration).run
        [Op.deleteExpired 110]).GetWithExpiration 120 "x" = (some 9, Time.zero, true) :=
  ⟨by decide,
    (C11_expiration_instant_bounds (NewGCache Nat 0) 100 50 "x" (some 9)
      [Op.deleteExpired 110] (by decide)).1 120 (by decide) (by decide) (by decide)
      (by decide) (by decide),
    (C11_expiration_instant_bounds (NewGCache Nat 0) 100 50 "x" (some 9)
      [Op.deleteExpired 110] (by decide)).2 120⟩

/-- C12: `NewCache(de, ci)` returns a cache with an empty map (every `Get`
misses) whose `defaultExpiration` is `de`; its `Keeper` is non-nil if and only
if `ci > 0`; and with `ci ≤ 0` there is no `Keeper` and no sweeper goroutine,
also after any later calls, so `DeleteExpired` runs only when it is called. -/
theorem C12_NewCache_keeper_iff {V : Type} (de ci : Int) :
    (NewCache V de ci).items.entries = [] ∧
    (∀ now k, (NewCache V de ci).Get now k = (none, false)) ∧
    (NewCache V de ci).defaultExpiration = de ∧
    ((NewCache V de ci).Keeper.isSome = true ↔ ci > 0) ∧
    (ci ≤ 0 → (NewCache V de ci).Keeper = none ∧
      ∀ ops evs, ((NewCache V de ci).run ops).sweeper evs = none) := by
  by_cases h : ci > 0
  · have e : NewCache V de ci = (NewGCache V de).runKeeper de := by
      simp only [NewCache, h, if_true]
    rw [e]
    refine ⟨rfl, fun now k => rfl, rfl, ?_, fun h' => absurd h (not_lt.2 h')⟩
    simp [GCache.runKeeper, h]
  · have e : NewCache V de ci = NewGCache V de := by
      simp only [NewCache, h, if_false]
    rw [e]
    refine ⟨rfl, fun now k => rfl, rfl, ?_, fun _ => ⟨rfl, fun ops evs => ?_⟩⟩
    · simp [NewGCache, h]
    · unfold GCache.sweeper
      rw [(run_fields ops _).2]
      rfl

/-- C12 with a sweep interval of one second and with none. -/
theorem C12_NewCache_keeper_iff_witness :
    (NewCache Nat 60000000000 1000000000).Keeper.isSome = true ∧
    ((0 : Int) ≤ 0 ∧ (NewCache Nat 60000000000 0).Keeper = none ∧
      ((NewCache Nat 60000000000 0).run [Op.set 1 "foo" (some 1) 0]).sweeper
        [KeeperEvent.tick 5] = none) :=
  ⟨(C12_NewCache_keeper_iff 60000000000 1000000000).2.2.2.1.2 (by decide),
    by decide,
    ((C12_NewCache_keeper_iff 60000000000 0).2.2.2.2 (by decide)).1,
    ((C12_NewCache_keeper_iff 60000000000 0).2.2.2.2 (by decide)).2 _ _⟩

/-- C13 fails on the code: `NewCache` with default duration 5 s and sweep
interval 10 s installs a `Keeper` whose `intervalExpire` is 5 s, the default
duration, not the sweep interval. -/
theorem C13_keeper_interval_is_default_expiration :
    (NewCache Nat 5000000000 10000000000).Keeper = some { intervalExpire := 5000000000 } ∧
    (5000000000 : Int) ≠ 10000000000 := by
  decide


/-- C14 fails on the code: with a positive ticker period, whatever messages
`Keeper.run` receives, it is still inside its loop afterwards and has executed
one iteration per message; a stop message only stops the ticker.  The
function never returns. -/
theorem C14_run_never_returns {V : Type} (k : Keeper) (c : GCache V)
    (evs : List KeeperEvent) (h : k.intervalExpire > 0) :
    ∃ s, k.run c evs = RunOutcome.looping s ∧ s.iterations = evs.length ∧
      (KeeperEvent.stop ∈ evs → s.tickerStopped = true) := by
  unfold Keeper.run
  rw [if_neg (not_le.2 h)]
  obtain ⟨s', h1, h2, h3⟩ := runLoop_looping evs
    ({ cache := c, tickerStopped := false, iterations := 0 } : KeeperLoop V)
  exact ⟨s', h1, by simpa using h2, fun hs => h3 (Or.inr hs)⟩

/-- C14 on the code after one stop message, and after a second one. -/
theorem C14_run_never_returns_witness :
    ((1000 : Int) > 0 ∧
      ∃ s, Keeper.run { intervalExpire := 1000 } sampleCache
          [KeeperEvent.stop, KeeperEvent.stop] = RunOutcome.looping s ∧
        s.iterations = [KeeperEvent.stop, KeeperEvent.stop].length ∧
        (KeeperEvent.stop ∈ [KeeperEvent.stop, KeeperEvent.stop] → s.tickerStopped = true)) ∧
    Keeper.run { intervalExpire := 1000 } sampleCache [KeeperEvent.stop] =
      RunOutcome.looping { cache := sampleCache, tickerStopped := true, iterations := 1 } :=
  ⟨⟨by decide, C14_run_never_returns { intervalExpire := 1000 } sampleCache
      [KeeperEvent.stop, KeeperEvent.stop] (by decide)⟩, rfl⟩

/-- C15 fails on the code: `NewCache(DefaultExpiration, 1s)` and
`NewCache(NoExpiration, 1s)` install a `Keeper` whose ticker period is the
default duration, 0 and -1, and `time.NewTicker` panics in the sweeper
goroutine. -/
theorem C15_NewCache_sweeper_panics :
    (NewCache Nat DefaultExpiration 1000000000).Keeper = some { intervalExpire := 0 } ∧
    (NewCache Nat DefaultExpiration 1000000000).sweeper [] = some RunOutcome.panicked ∧
    (NewCache Nat NoExpiration 1000000000).Keeper = some { intervalExpire := -1 } ∧
    (NewCache Nat NoExpiration 1000000000).sweeper [] = some RunOutcome.panicked :=
  ⟨rfl, rfl, rfl, rfl⟩

/-- C17: for `t > 0` and no `int64` overflow, `Set(k, v, d)` binds `k` to
`Item{Object: v, Expiration: e}`, where `d'` is the default duration if
`d = 0` and `d` otherwise, and `e = t + d' > 0` if `d' > 0` and `e = 0` if
`d' ≤ 0`; every other key keeps its entry and the other fields are unchanged. -/
theorem C17_Set_binds_key {V : Type} (c : GCache V) (t d d' : Int) (k : String)
    (v : Option V) (hd' : d' = if d = DefaultExpiration then c.defaultExpiration else d)
    (ht : t > 0) (hov : t + d' < 2 ^ 63) :
    (c.Set t k v d).items.lookup k =
      some { Object := v, Expiration := if d' > 0 then t + d' else 0 } ∧
    (d' > 0 → t + d' > 0) ∧
    (∀ k', k' ≠ k → (c.Set t k v d).items.lookup k' = c.items.lookup k') ∧
    (c.Set t k v d).defaultExpiration = c.defaultExpiration ∧
    (c.Set t k v d).Keeper = c.Keeper := by
  refine ⟨?_, fun h => by omega, fun k' hk => Set_lookup_ne c t k k' v d hk, rfl, rfl⟩
  rw [Set_lookup_self, ← hd']
  by_cases h : d' > 0
  · have hw : wrapInt64 (t + d') = t + d' := wrapInt64_of_range _ (by norm_num; omega) hov
    simp [h, hw]
  · simp [h]

/-- C17 with a custom duration, with the default one and with `NoExpiration`. -/
theorem C17_Set_binds_key_witness :
    ((10 : Int) = (if (10 : Int) = DefaultExpiration then sampleCache.defaultExpiration else 10) ∧
      (100 : Int) > 0 ∧ (100 : Int) + 10 < 2 ^ 63) ∧
    (sampleCache.Set 100 "stale" (some 8) 10).items.lookup "stale" =
      some { Object := some 8, Expiration := if (10 : Int) > 0 then 100 + 10 else 0 } ∧
    ((NewGCache Nat 7).Set 100 "a" (some 8) DefaultExpiration).items.lookup "a" =
      some { Object := some 8, Expiration := if (7 : Int) > 0 then 100 + 7 else 0 } ∧
    ((NewGCache Nat 7).Set 100 "a" (some 8) NoExpiration).items.lookup "a" =
      some { Object := some 8, Expiration := if (-1 : Int) > 0 then 100 + -1 else 0 } :=
  ⟨by decide,
    (C17_Set_binds_key sampleCache 100 10 10 "stale" (some 8) (by decide) (by decide)
      (by decide)).1,
    (C17_Set_binds_key (NewGCache Nat 7) 100 DefaultExpiration 7 "a" (some 8) (by decide)
      (by decide) (by decide)).1,
    (C17_Set_binds_key (NewGCache Nat 7) 100 NoExpiration (-1) "a" (some 8) (by decide)
      (by decide) (by decide)).1⟩

/-- C18: for `t ≤ t'`, `Get(k)` and `GetWithExpiration(k)` at `t'` return the
same on the cache swept by `DeleteExpired` at `t` as on the unswept cache, and
`Items()` at `t'` returns the same map on both. -/
theorem C18_sweep_transparent {V : Type} (c : GCache V) (t t' : Int) (k : String)
    (h : t ≤ t') :
    (c.DeleteExpired t).Get t' k = c.Get t' k ∧
    (c.DeleteExpired t).GetWithExpiration t' k = c.GetWithExpiration t' k ∧
    (c.DeleteExpired t).Items t' = c.Items t' := by
  refine ⟨?_, ?_, ?_⟩
  · rcases DeleteExpired_Get c t t' h k with hl | ⟨hl, it, hit, hx⟩
    · simp only [GCache.Get, hl]
    · rw [Get_of_lookup_none _ t' k hl, Get_of_lookup_some c t' k it hit, if_pos hx]
  · rcases DeleteExpired_Get c t t' h k with hl | ⟨hl, it, hit, hx⟩
    · simp only [GCache.GetWithExpiration, hl]
    · rw [GetWithExpiration_of_lookup_some c t' k it hit, if_pos hx]
      simp only [GCache.GetWithExpiration, hl]
  · unfold GCache.Items
    rw [DeleteExpired_entries]
    apply foldl_itemsStep_filter
    intro e he
    simp only [Bool.not_eq_false', decide_eq_true_eq] at he
    omega

/-- C18 on a cache with an expired, an unexpired and a never-expiring entry. -/
theorem C18_sweep_transparent_witness :
    (100 : Int) ≤ 300 ∧
    (sampleCache.DeleteExpired 100).Get 300 "fresh" = sampleCache.Get 300 "fresh" ∧
    (sampleCache.DeleteExpired 100).GetWithExpiration 300 "fresh"
      = sampleCache.GetWithExpiration 300 "fresh" ∧
    (sampleCache.DeleteExpired 100).Items 300 = sampleCache.Items 300 :=
  ⟨by decide, C18_sweep_transparent sampleCache 100 300 "fresh" (by decide)⟩

/-- C20: for a fixed cache and `t ≤ t'`, a key that `Get` misses at `t` is
missed at `t'`, and every key of `Items()` at `t'` is a key of `Items()` at
`t`. -/
theorem C20_expiry_monotone {V : Type} (c : GCache V) (t t' : Int) (k : String)
    (h : t ≤ t') :
    ((c.Get t k).2 = false → (c.Get t' k).2 = false) ∧
    (k ∈ c.Items t' → k ∈ c.Items t) := by
  constructor
  · cases hl : c.items.lookup k with
    | none => simp [Get_of_lookup_none c _ k hl]
    | some it =>
      rw [Get_of_lookup_some c t k it hl, Get_of_lookup_some c t' k it hl]
      by_cases hx : it.Expiration > 0 ∧ t > it.Expiration
      · have hx' : it.Expiration > 0 ∧ t' > it.Expiration := ⟨hx.1, by omega⟩
        simp [hx, hx']
      · simp [hx]
  · rw [mem_Items_iff, mem_Items_iff]
    rintro ⟨it, hit, hlive⟩
    exact ⟨it, hit, by omega⟩

/-- C20 on a cache whose entry "fresh" expires at 200. -/
theorem C20_expiry_monotone_witness :
    (250 : Int) ≤ 300 ∧ (sampleCache.Get 300 "fresh").2 = false ∧
    ("forever" ∈ sampleCache.Items 250) :=
  ⟨by decide,
    (C20_expiry_monotone sampleCache 250 300 "fresh" (by decide)).1 (by decide),
    (C20_expiry_monotone sampleCache 250 300 "forever" (by decide)).2
      ((mem_Items_iff sampleCache 300 "forever").2
        ⟨{ Object := some 3, Expiration := 0 }, by decide, by decide⟩)⟩


/-- C19: writes to distinct keys commute.  For `k1 ≠ k2`, two `Set` calls, each
with its own clock reading, leave the same map in either order; so do
`Delete(k1)` and `Delete(k2)`, and `Set(k1, ...)` and `Delete(k2)`.  Hence
`Set` calls on pairwise distinct keys leave the same map in every order, in
which every key is bound to the entry its own call wrote; a key set with
`NoExpiration` reads back its own value at every time. -/
theorem C19_distinct_key_writes_commute {V : Type} (c : GCache V) :
    (∀ (k₁ k₂ : String) (v₁ v₂ : Option V) (d₁ d₂ t₁ t₂ : Int), k₁ ≠ k₂ →
      ((c.Set t₁ k₁ v₁ d₁).Set t₂ k₂ v₂ d₂).sameState ((c.Set t₂ k₂ v₂ d₂).Set t₁ k₁ v₁ d₁) ∧
      ((c.Delete k₁).Delete k₂).sameState ((c.Delete k₂).Delete k₁) ∧
      ((c.Set t₁ k₁ v₁ d₁).Delete k₂).sameState ((c.Delete k₂).Set t₁ k₁ v₁ d₁)) ∧
    (∀ calls calls' : List (SetCall V), (calls.map SetCall.k).Nodup → calls'.Perm calls →
      (c.run (calls'.map SetCall.toOp)).sameState (c.run (calls.map SetCall.toOp)) ∧
      ∀ s ∈ calls,
        (c.run (calls'.map SetCall.toOp)).items.lookup s.k =
          (c.Set s.now s.k s.v s.d).items.lookup s.k ∧
        (s.d = NoExpiration →
          ∀ now, (c.run (calls'.map SetCall.toOp)).Get now s.k = (s.v, true))) := by
  constructor
  · intro k₁ k₂ v₁ v₂ d₁ d₂ t₁ t₂ h
    refine ⟨sameState_of_lookup _ _ rfl (Set_Set_lookup_comm c k₁ k₂ h t₁ t₂ d₁ d₂ v₁ v₂) rfl,
      sameState_of_lookup _ _ ?_ (Delete_Delete_lookup_comm c k₁ k₂) ?_,
      sameState_of_lookup _ _ ?_ (Set_Delete_lookup_comm c k₁ k₂ h t₁ d₁ v₁) ?_⟩
    · rw [(Delete_fields _ k₂).1, (Delete_fields c k₁).1, (Delete_fields _ k₁).1,
        (Delete_fields c k₂).1]
    · rw [(Delete_fields _ k₂).2, (Delete_fields c k₁).2, (Delete_fields _ k₁).2,
        (Delete_fields c k₂).2]
    · exact (Delete_fields _ k₂).1.trans (Delete_fields c k₂).1.symm
    · exact (Delete_fields _ k₂).2.trans (Delete_fields c k₂).2.symm
  · intro calls calls' nd hp
    have nd' : (calls'.map SetCall.k).Nodup := (hp.map SetCall.k).nodup_iff.2 nd
    have hown : ∀ s ∈ calls, (c.run (calls'.map SetCall.toOp)).items.lookup s.k =
        (c.Set s.now s.k s.v s.d).items.lookup s.k :=
      fun s hs => run_sets_lookup_of_mem s calls' c nd' (hp.mem_iff.2 hs)
    refine ⟨sameState_of_lookup _ _ ?_ ?_ ?_, fun s hs => ⟨hown s hs, fun hd now => ?_⟩⟩
    · rw [(run_fields _ c).1, (run_fields _ c).1]
    · intro x
      by_cases hx : x ∈ calls.map SetCall.k
      · obtain ⟨s, hs, rfl⟩ := List.mem_map.1 hx
        rw [hown s hs, run_sets_lookup_of_mem s calls c nd hs]
      · have hx' : x ∉ calls'.map SetCall.k := fun e => hx ((hp.map SetCall.k).mem_iff.1 e)
        rw [run_sets_lookup_of_not_mem x calls' c hx', run_sets_lookup_of_not_mem x calls c hx]
    · rw [(run_fields _ c).2, (run_fields _ c).2]
    · have hl := hown s hs
      rw [Set_lookup_self, hd] at hl
      rw [Get_of_lookup_some _ now s.k _ hl]
      simp [NoExpiration, DefaultExpiration]


/-- C19 on two keys of a three-entry cache, and on three calls in two orders. -/
theorem C19_distinct_key_writes_commute_witness :
    ("fresh" ≠ "stale" ∧
      ((sampleCache.Set 10 "fresh" (some 5) 7).Set 20 "stale" (some 6) 0).sameState
        ((sampleCache.Set 20 "stale" (some 6) 0).Set 10 "fresh" (some 5) 7)) ∧
    ((sampleCalls.map SetCall.k).Nodup ∧ sampleCallsShuffled.Perm sampleCalls ∧
      ((NewGCache Nat 0).run (sampleCallsShuffled.map SetCall.toOp)).sameState
        ((NewGCache Nat 0).run (sampleCalls.map SetCall.toOp)) ∧
      ((NewGCache Nat 0).run (sampleCallsShuffled.map SetCall.toOp)).Get 1000 "foo1"
        = (some 1, true)) :=
  ⟨⟨by decide,
      ((C19_distinct_key_writes_commute sampleCache).1 "fresh" "stale" (some 5) (some 6) 7 0
        10 20 (by decide)).1⟩,
    by decide, by decide,
    ((C19_distinct_key_writes_commute (NewGCache Nat 0)).2 sampleCalls sampleCallsShuffled
      (by decide) (by decide)).1,
    (((C19_distinct_key_writes_commute (NewGCache Nat 0)).2 sampleCalls sampleCallsShuffled
      (by decide) (by decide)).2
        { now := 2, k := "foo1", v := some 1, d := NoExpiration } (by decide)).2 rfl 1000⟩

end gcache
